import Mathlib

/-!
Verification of the jira-time-tracker core against its specification.

The development shallowly embeds the relevant source functions:

* `src/utils/jira.ts` — `parseState`, `stringifyState`,
  `extractTextFromAtlassianDocumentFormat`;
* `src/services/jira.ts` — `JiraApiClient.getUserProperty`, `setUserProperty`,
  `fetchPaginatedWorklogs`, `filterWorklogs`, `getLogsForDay` (day-window and
  ordering parts);
* `src/services/migration.ts` — `migrate`, `jiraStateMigrations`,
  `localStorageMigrations`, `migrateJiraState`, `migrateLocalStorage`;
* `src/hooks/useJira.ts` — `updateJiraStateAtomically`.

JavaScript values flowing through these functions are modelled by the `Json`
inductive below; JavaScript objects are association lists of key/value pairs
(`JsObj`), with JS property-assignment semantics (`setField` updates an
existing key in place and appends a fresh one, as object spread / assignment
does).  The remote Jira user property is modelled by `FakeStore`, which keeps
the property value, a failure schedule for reads and writes, and a trace of
the operations performed, so that ordering claims (fresh read before write,
write-back before transition) are statements about the trace.

`JSON.parse` of the raw property text is kept abstract: string-level
functions take a `jsonParse : String → Option Json` parameter, where `none`
models both a parse exception and non-JSON input.  The wire value stored in
the property is modelled at the `Json` level (the extra stringify/parse pair
performed by the HTTP transport is the identity on this model).
-/

/-- JavaScript/JSON values.  `undefined` never occurs as a stored value; a
missing object property is modelled by `Option.none` at lookup sites. -/
inductive Json where
  | null : Json
  | bool (b : Bool) : Json
  | num (n : Int) : Json
  | str (s : String) : Json
  | arr (xs : List Json) : Json
  | obj (kvs : List (String × Json)) : Json

/-- A JavaScript object: ordered key/value pairs (keys unique in practice). -/
abbrev JsObj := List (String × Json)

/-- Property lookup on an object's field list (`o[k]`); `none` = `undefined`. -/
def lookupF : List (String × Json) → String → Option Json
  | [], _ => none
  | (k', v) :: rest, k => if k' = k then some v else lookupF rest k

/-- Property lookup on an arbitrary value; non-objects have no own properties
here (in JS, property access on a primitive yields `undefined`; access on
`null`/`undefined` throws and is modelled explicitly at the use sites). -/
def getField : Json → String → Option Json
  | Json.obj kvs, k => lookupF kvs k
  | _, _ => none

/-- JS property assignment `o[k] = v`: overwrite an existing key in place,
otherwise append the key at the end (JS enumeration-order semantics). -/
def setField : JsObj → String → Json → JsObj
  | [], k, v => [(k, v)]
  | (k', v') :: rest, k, v =>
      if k' = k then (k', v) :: rest else (k', v') :: setField rest k v

/-- JavaScript truthiness of a value. -/
def jsTruthy : Json → Bool
  | Json.null => false
  | Json.bool b => b
  | Json.num n => n ≠ 0
  | Json.str s => s ≠ ""
  | Json.arr _ => true
  | Json.obj _ => true

/-- Truthiness of a possibly-missing value (`undefined` is falsy). -/
def jsTruthyO : Option Json → Bool
  | none => false
  | some v => jsTruthy v

/-- JS `x || dflt` on a possibly-missing value. -/
def jsOr (v : Option Json) (dflt : Json) : Json :=
  match v with
  | some x => if jsTruthy x then x else dflt
  | none => dflt

/-- True of values that are not JS objects (`typeof v !== 'object'`, or the
falsy `null`); arrays and objects are excluded. -/
def nonObjectLike : Json → Bool
  | Json.arr _ => false
  | Json.obj _ => false
  | _ => true

/-- The default state substituted by `parseState` in src/utils/jira.ts:
`{ trackedTickets: {}, starredTickets: [] }`. -/
def defaultState : JsObj :=
  [("trackedTickets", Json.obj []), ("starredTickets", Json.arr [])]

/-- Core of `parseState` (src/utils/jira.ts lines 5-18), applied to the
outcome of `JSON.parse`: `none` models a missing/empty/unparseable body.
The null check, the `typeof` check, and the two field-default mutations are
mirrored in order.  A parsed array (`typeof` is `'object'` in JS, so it is
kept and gets the two fields assigned onto it) is modelled by an object
carrying just those fields — no caller observes the array elements. -/
def parseStateJson (parsed : Option Json) : JsObj :=
  let base : JsObj :=
    match parsed with
    | some (Json.obj kvs) => kvs
    | some (Json.arr _) => []
    | _ => defaultState
  let b1 := if jsTruthyO (lookupF base "trackedTickets") then base
            else setField base "trackedTickets" (Json.obj [])
  if jsTruthyO (lookupF b1 "starredTickets") then b1
  else setField b1 "starredTickets" (Json.arr [])

/-- String-level `parseState` (src/utils/jira.ts lines 5-18): an absent body
(404 returned `null`) or an empty string skips parsing; a parse exception
(`jsonParse` returning `none`) is caught and logged.  Either way the shape
defaulting of `parseStateJson` runs on the outcome. -/
def parseState (jsonParse : String → Option Json) : Option String → JsObj
  | none => parseStateJson none
  | some s => if s = "" then parseStateJson none else parseStateJson (jsonParse s)

/-- Field list of the object literal built by `stringifyState`
(src/utils/jira.ts lines 20-26): exactly `trackedTickets` and
`starredTickets` are copied from the in-memory state; a field that is
missing on the state would be `undefined` and is dropped by
`JSON.stringify`, hence omitted here. -/
def stateToStoreFields (state : JsObj) : JsObj :=
  (match lookupF state "trackedTickets" with
   | some v => [("trackedTickets", v)]
   | none => []) ++
  (match lookupF state "starredTickets" with
   | some v => [("starredTickets", v)]
   | none => [])

/-- `stringifyState` (src/utils/jira.ts lines 20-26), with the serialized
JSON text modelled as the JSON value it denotes. -/
def stringifyState (state : JsObj) : Json :=
  Json.obj (stateToStoreFields state)

/-- Keys of a serialized object. -/
def objKeys : Json → List String
  | Json.obj kvs => kvs.map (fun kv => kv.1)
  | _ => []

/-- C7: for every in-memory state object, the serialized form written to the
remote property carries only the documented persisted fields — its key list
is exactly the documented keys that are present on the state (so it is always
a subset of `trackedTickets`/`starredTickets`), transient keys such as
`isDefault` never occur in it, and the values of the documented fields are
taken unchanged from the state. -/
theorem stringifyState_strips_transient_fields :
    ∀ state : JsObj,
      objKeys (stringifyState state) =
        ((match lookupF state "trackedTickets" with
          | some _ => ["trackedTickets"]
          | none => []) ++
         (match lookupF state "starredTickets" with
          | some _ => ["starredTickets"]
          | none => [])) ∧
      (objKeys (stringifyState state)).contains "isDefault" = false ∧
      lookupF (stateToStoreFields state) "trackedTickets"
        = lookupF state "trackedTickets" ∧
      lookupF (stateToStoreFields state) "starredTickets"
        = lookupF state "starredTickets" := by
  intro state
  refine ⟨?_, ?_, ?_, ?_⟩ <;>
    rcases h1 : lookupF state "trackedTickets" with _ | v1 <;>
    rcases h2 : lookupF state "starredTickets" with _ | v2 <;>
      simp [stringifyState, stateToStoreFields, objKeys, h1, h2, lookupF]



/-! ### Schema migration engine (src/services/migration.ts) -/

/-- A migration step (src/services/migration.ts lines 4-7): a target version
and a transform on the blob. -/
structure Migration where
  version : Nat
  migrate : JsObj → JsObj

/-- The numeric value of a blob's `version` field with JS defaulting
(`data.version || 0`); a missing or non-numeric field counts as 0 (the only
non-numeric versions the callers can produce are absent ones). -/
def versionOr0 (data : JsObj) : Int :=
  match lookupF data "version" with
  | some (Json.num n) => n
  | _ => 0

/-- True when `isMigrated` would compare equal: the blob's `version` field is
present and strictly equal (as a JS number) to `n`. -/
def versionFieldEqNum (o : Option Json) (n : Int) : Bool :=
  match o with
  | some (Json.num m) => m == n
  | _ => false

/-- The `while (currentVersion < latestVersion)` loop of `migrate`
(src/services/migration.ts lines 57-65), run for its exact iteration count:
each pass looks up the migration targeting `currentVersion + 1`, applies it
and stamps the new version when found, and advances the version counter
either way (gap tolerance). -/
def migrateSteps (migrations : List Migration) : Nat → Int → JsObj → JsObj
  | 0, _, md => md
  | Nat.succ n, currentVersion, md =>
      let nextVersion := currentVersion + 1
      match migrations.find? (fun m => (m.version : Int) == nextVersion) with
      | some mg =>
          migrateSteps migrations n nextVersion
            (setField (mg.migrate md) "version" (Json.num nextVersion))
      | none => migrateSteps migrations n nextVersion md

/-- `migrate` (src/services/migration.ts lines 52-68).  The while loop runs
`(latestVersion - originalVersion).toNat` times since the counter increases
by exactly one per pass.  `isMigrated` is the strict JS comparison
`originalVersion !== migratedData.version` (note: the left side is defaulted
with `|| 0`, the right side is the raw field). -/
def migrate (data : JsObj) (migrations : List Migration) (latestVersion : Int) :
    JsObj × Bool :=
  let originalVersion := versionOr0 data
  let migratedData :=
    migrateSteps migrations (latestVersion - originalVersion).toNat originalVersion data
  (migratedData, ! versionFieldEqNum (lookupF migratedData "version") originalVersion)

/-- `Math.max` over the chain's versions, 0 for an empty chain
(src/services/migration.ts lines 49-50). -/
def latestVersionOf (ms : List Migration) : Int :=
  match ms.map (fun m => (m.version : Int)) with
  | [] => 0
  | v :: vs => vs.foldl max v

/-- The version-1 jira-state transform (src/services/migration.ts lines
39-46): spread the blob and default `trackedTickets`/`starredTickets`. -/
def jiraStateMigrationV1 (data : JsObj) : JsObj :=
  setField
    (setField data "trackedTickets" (jsOr (lookupF data "trackedTickets") (Json.obj [])))
    "starredTickets" (jsOr (lookupF data "starredTickets") (Json.arr []))

/-- The jira-state migration chain (src/services/migration.ts lines 38-47). -/
def jiraStateMigrations : List Migration :=
  [{ version := 1, migrate := jiraStateMigrationV1 }]

/-- The version-2 local-settings transform (src/services/migration.ts lines
16-35), parameterized by the UUID that `randomUUID()` (src/utils/time.ts,
backed by `crypto`) returns during the step: it rebuilds the blob around a
one-element `accounts` list whose fresh `id` — also referenced by
`activeAccount` — is that UUID.  JS fields copied from a blob that lacks
them (`undefined`) are modelled as `null`; no claim inspects those. -/
def localStorageMigrationV2 (uuid : String) (data : JsObj) : JsObj :=
  [("accounts", Json.arr
      [Json.obj
        [("id", Json.str uuid),
         ("jiraSubdomain", (lookupF data "jiraSubdomain").getD Json.null),
         ("email", (lookupF data "email").getD Json.null),
         ("jiraToken", (lookupF data "jiraToken").getD Json.null)]]),
   ("activeAccount", Json.str uuid),
   ("displayOnNewLine", (lookupF data "displayOnNewLine").getD Json.null),
   ("isHeaderNonFloating", (lookupF data "isHeaderNonFloating").getD Json.null),
   ("theme", (lookupF data "theme").getD Json.null)]

/-- The local-settings migration chain (src/services/migration.ts lines
9-36): version 1 is the identity spread, version 2 is
`localStorageMigrationV2` above. -/
def localStorageMigrations (uuid : String) : List Migration :=
  [{ version := 1, migrate := fun data => data },
   { version := 2, migrate := localStorageMigrationV2 uuid }]

/-- `migrateJiraState` (src/services/migration.ts lines 81-90). -/
def migrateJiraState (data : JsObj) : JsObj × Bool :=
  migrate data jiraStateMigrations (latestVersionOf jiraStateMigrations)

/-- `migrateLocalStorage` (src/services/migration.ts lines 70-79), with the
UUID drawn by its version-2 step made explicit. -/
def migrateLocalStorage (uuid : String) (data : JsObj) : JsObj × Bool :=
  migrate data (localStorageMigrations uuid) (latestVersionOf (localStorageMigrations uuid))

/-- Well-formed version field: absent, or a (non-negative) natural number, as
the data model documents (`schemaVersion`: integer, absent/0 means
pre-versioning). -/
def versionWellFormed (data : JsObj) : Prop :=
  lookupF data "version" = none ∨ ∃ n : Nat, lookupF data "version" = some (Json.num n)

theorem versionOr0_nonneg {data : JsObj} (h : versionWellFormed data) :
    0 ≤ versionOr0 data := by
  rcases h with h | ⟨n, h⟩ <;> simp [versionOr0, h]

theorem lookupF_setField_self (d : JsObj) (k : String) (v : Json) :
    lookupF (setField d k v) k = some v := by
  induction d with
  | nil => simp [setField, lookupF]
  | cons p rest ih =>
      obtain ⟨k', v'⟩ := p
      by_cases hk : k' = k <;> simp [setField, lookupF, hk, ih]

theorem migrateJiraState_of_version0 (data : JsObj) (h : versionOr0 data = 0) :
    migrateJiraState data
      = (setField (jiraStateMigrationV1 data) "version" (Json.num 1), true) := by
  simp [migrateJiraState, migrate, h, latestVersionOf, jiraStateMigrations,
    migrateSteps, List.find?, versionFieldEqNum, lookupF_setField_self]

theorem migrateJiraState_of_version_ge1 (data : JsObj)
    (hwf : versionWellFormed data) (h : 1 ≤ versionOr0 data) :
    migrateJiraState data = (data, false) := by
  rcases hwf with hv | ⟨n, hv⟩
  · simp [versionOr0, hv] at h
  · have hn : versionOr0 data = (n : Int) := by simp [versionOr0, hv]
    have hlat : latestVersionOf jiraStateMigrations = 1 := rfl
    have hz : ((1 : Int) - (n : Int)).toNat = 0 := by rw [hn] at h; omega
    simp only [migrateJiraState, migrate, hlat, hn, hz]
    simp [migrateSteps, versionFieldEqNum, hv]

theorem migrateLocalStorage_of_version0 (uuid : String) (data : JsObj)
    (h : versionOr0 data = 0) :
    migrateLocalStorage uuid data
      = (setField (localStorageMigrationV2 uuid (setField data "version" (Json.num 1)))
           "version" (Json.num 2), true) := by
  simp [migrateLocalStorage, migrate, h, latestVersionOf, localStorageMigrations,
    migrateSteps, List.find?, versionFieldEqNum, lookupF_setField_self]

theorem migrateLocalStorage_of_version1 (uuid : String) (data : JsObj)
    (h : versionOr0 data = 1) :
    migrateLocalStorage uuid data
      = (setField (localStorageMigrationV2 uuid data) "version" (Json.num 2), true) := by
  simp [migrateLocalStorage, migrate, h, latestVersionOf, localStorageMigrations,
    migrateSteps, List.find?, versionFieldEqNum, lookupF_setField_self]

theorem migrateLocalStorage_of_version_ge2 (uuid : String) (data : JsObj)
    (hwf : versionWellFormed data) (h : 2 ≤ versionOr0 data) :
    migrateLocalStorage uuid data = (data, false) := by
  rcases hwf with hv | ⟨n, hv⟩
  · simp [versionOr0, hv] at h
  · have hn : versionOr0 data = (n : Int) := by simp [versionOr0, hv]
    have hlat : latestVersionOf (localStorageMigrations uuid) = 2 := rfl
    have hz : ((2 : Int) - (n : Int)).toNat = 0 := by rw [hn] at h; omega
    simp only [migrateLocalStorage, migrate, hlat, hn, hz]
    simp [migrateSteps, versionFieldEqNum, hv]

theorem versionOr0_setField_version (d : JsObj) (n : Int) :
    versionOr0 (setField d "version" (Json.num n)) = n := by
  simp [versionOr0, lookupF_setField_self]

/-- C6: migration monotonicity for both chains.  For every well-formed blob
whose version is below the chain's latest version, `migrate` returns a blob
stamped with the latest version and reports `wasMigrated = true`; for a blob
already at the latest version it reports `wasMigrated = false` and returns
the blob unchanged; and in all cases `wasMigrated` is true exactly when the
result's version differs from the blob's original version (an absent version
reading as 0). -/
theorem migrate_monotonicity :
    (∀ data : JsObj, versionWellFormed data →
      ((versionOr0 data < latestVersionOf jiraStateMigrations →
          versionOr0 (migrateJiraState data).1 = latestVersionOf jiraStateMigrations ∧
          (migrateJiraState data).2 = true) ∧
       (versionOr0 data = latestVersionOf jiraStateMigrations →
          (migrateJiraState data).2 = false ∧ (migrateJiraState data).1 = data) ∧
       ((migrateJiraState data).2 = true ↔
          versionOr0 (migrateJiraState data).1 ≠ versionOr0 data))) ∧
    (∀ (uuid : String) (data : JsObj), versionWellFormed data →
      ((versionOr0 data < latestVersionOf (localStorageMigrations uuid) →
          versionOr0 (migrateLocalStorage uuid data).1
            = latestVersionOf (localStorageMigrations uuid) ∧
          (migrateLocalStorage uuid data).2 = true) ∧
       (versionOr0 data = latestVersionOf (localStorageMigrations uuid) →
          (migrateLocalStorage uuid data).2 = false ∧
          (migrateLocalStorage uuid data).1 = data) ∧
       ((migrateLocalStorage uuid data).2 = true ↔
          versionOr0 (migrateLocalStorage uuid data).1 ≠ versionOr0 data))) := by
  constructor
  · intro data hwf
    have h0 := versionOr0_nonneg hwf
    have hlat : latestVersionOf jiraStateMigrations = 1 := rfl
    refine ⟨?_, ?_, ?_⟩
    · intro hlt
      rw [hlat] at hlt
      have hv0 : versionOr0 data = 0 := by omega
      rw [migrateJiraState_of_version0 data hv0]
      simp [versionOr0_setField_version, hlat]
    · intro heq
      rw [hlat] at heq
      rw [migrateJiraState_of_version_ge1 data hwf (by omega)]
      simp
    · rcases (show versionOr0 data = 0 ∨ 1 ≤ versionOr0 data by omega) with hv0 | hge
      · rw [migrateJiraState_of_version0 data hv0]
        simp [versionOr0_setField_version, hv0]
      · rw [migrateJiraState_of_version_ge1 data hwf hge]
        simp
  · intro uuid data hwf
    have h0 := versionOr0_nonneg hwf
    have hlat : latestVersionOf (localStorageMigrations uuid) = 2 := rfl
    refine ⟨?_, ?_, ?_⟩
    · intro hlt
      rw [hlat] at hlt
      rcases (show versionOr0 data = 0 ∨ versionOr0 data = 1 by omega) with hv | hv
      · rw [migrateLocalStorage_of_version0 uuid data hv]
        simp [versionOr0_setField_version, hlat]
      · rw [migrateLocalStorage_of_version1 uuid data hv]
        simp [versionOr0_setField_version, hlat]
    · intro heq
      rw [hlat] at heq
      rw [migrateLocalStorage_of_version_ge2 uuid data hwf (by omega)]
      simp
    · rcases (show versionOr0 data = 0 ∨ versionOr0 data = 1 ∨ 2 ≤ versionOr0 data by omega)
        with hv | hv | hge
      · rw [migrateLocalStorage_of_version0 uuid data hv]
        simp [versionOr0_setField_version, hv]
      · rw [migrateLocalStorage_of_version1 uuid data hv]
        simp [versionOr0_setField_version, hv]
      · rw [migrateLocalStorage_of_version_ge2 uuid data hwf hge]
        simp

/-- C6 witness: the empty blob (version absent, i.e. 0) migrates to version 1
on the jira-state chain with `wasMigrated = true`; a version-2 settings blob
is left alone by the local-settings chain. -/
theorem migrate_monotonicity_witness :
    versionWellFormed ([] : JsObj) ∧
    versionOr0 ([] : JsObj) < latestVersionOf jiraStateMigrations ∧
    (versionOr0 (migrateJiraState []).1 = latestVersionOf jiraStateMigrations ∧
     (migrateJiraState []).2 = true) ∧
    versionWellFormed [("version", Json.num 2)] ∧
    (migrateLocalStorage "00000000-0000-4000-8000-000000000000"
        [("version", Json.num 2)]).2 = false :=
  ⟨Or.inl rfl, by decide,
   (migrate_monotonicity.1 [] (Or.inl rfl)).1 (by decide),
   Or.inr ⟨2, rfl⟩,
   ((migrate_monotonicity.2 "00000000-0000-4000-8000-000000000000"
       [("version", Json.num 2)] (Or.inr ⟨2, rfl⟩)).2.1 (by decide)).1⟩

theorem lookupF_migrateLocalStorage_activeAccount (uuid : String) (data : JsObj)
    (hwf : versionWellFormed data) (hlt : versionOr0 data < 2) :
    lookupF (migrateLocalStorage uuid data).1 "activeAccount" = some (Json.str uuid) := by
  have h0 := versionOr0_nonneg hwf
  rcases (show versionOr0 data = 0 ∨ versionOr0 data = 1 by omega) with hv | hv
  · rw [migrateLocalStorage_of_version0 uuid data hv]
    simp [localStorageMigrationV2, setField, lookupF]
  · rw [migrateLocalStorage_of_version1 uuid data hv]
    simp [localStorageMigrationV2, setField, lookupF]

/-- C8 counterexample: two runs of the local-settings migration on the same
input blob (the empty, pre-versioning settings object) do not produce
identical results — the run is parameterized by the UUID `randomUUID()`
returns, and different drawn UUIDs yield different migrated blobs, so the
chain's version-2 transform is not a deterministic pure function of the blob
alone. -/
theorem migrate_not_deterministic_counterexample :
    migrateLocalStorage "11111111-1111-4111-8111-111111111111" []
      ≠ migrateLocalStorage "22222222-2222-4222-8222-222222222222" [] := by
  intro heq
  have h1 := lookupF_migrateLocalStorage_activeAccount
    "11111111-1111-4111-8111-111111111111" [] (Or.inl rfl) (by decide)
  have h2 := lookupF_migrateLocalStorage_activeAccount
    "22222222-2222-4222-8222-222222222222" [] (Or.inl rfl) (by decide)
  rw [heq, h2] at h1
  simp at h1

/-- C8 (amended): the migration engine and the jira-state chain consume no
randomness at all (their definitions take no entropy input), and the
local-settings migration is a pure function of the blob and the single UUID
drawn by its version-2 step: runs agree whenever that step does not fire
(blob version at least 2), and runs with different drawn UUIDs necessarily
differ whenever it does fire (well-formed blob version below 2). -/
theorem migrate_determinism_amended :
    (∀ (u1 u2 : String) (data : JsObj), versionWellFormed data →
        2 ≤ versionOr0 data →
        migrateLocalStorage u1 data = migrateLocalStorage u2 data) ∧
    (∀ (u1 u2 : String) (data : JsObj), versionWellFormed data →
        versionOr0 data < 2 → u1 ≠ u2 →
        migrateLocalStorage u1 data ≠ migrateLocalStorage u2 data) := by
  constructor
  · intro u1 u2 data hwf h
    rw [migrateLocalStorage_of_version_ge2 u1 data hwf h,
        migrateLocalStorage_of_version_ge2 u2 data hwf h]
  · intro u1 u2 data hwf hlt hne heq
    have h1 := lookupF_migrateLocalStorage_activeAccount u1 data hwf hlt
    have h2 := lookupF_migrateLocalStorage_activeAccount u2 data hwf hlt
    rw [heq, h2] at h1
    simp at h1
    exact hne h1.symm

/-- C8 witness: concrete instances of both halves of the amended statement. -/
theorem migrate_determinism_amended_witness :
    (versionWellFormed [("version", Json.num 2)] ∧
     2 ≤ versionOr0 [("version", Json.num 2)] ∧
     migrateLocalStorage "33333333-3333-4333-8333-333333333333" [("version", Json.num 2)]
       = migrateLocalStorage "44444444-4444-4444-8444-444444444444"
           [("version", Json.num 2)]) ∧
    (versionWellFormed ([] : JsObj) ∧ versionOr0 ([] : JsObj) < 2 ∧
     migrateLocalStorage "33333333-3333-4333-8333-333333333333" []
       ≠ migrateLocalStorage "44444444-4444-4444-8444-444444444444" []) :=
  ⟨⟨Or.inr ⟨2, rfl⟩, by decide,
    migrate_determinism_amended.1 _ _ _ (Or.inr ⟨2, rfl⟩) (by decide)⟩,
   ⟨Or.inl rfl, by decide,
    migrate_determinism_amended.2 _ _ _ (Or.inl rfl) (by decide) (by decide)⟩⟩

/-! ### Remote property store and the atomic updater (src/services/jira.ts,
src/hooks/useJira.ts) -/

/-- One remote property operation, as recorded in the store trace. -/
inductive StoreOp where
  | readOk (v : Option Json) : StoreOp
  | readErr : StoreOp
  | writeOk (v : Json) : StoreOp
  | writeErr (v : Json) : StoreOp

/-- A fake of the Jira user-property endpoint pair
(`JiraApiClient.getUserProperty` / `setUserProperty`,
src/services/jira.ts lines 121-161).  `val` is the current property value
(`none` = property absent, i.e. the GET returns 404 and the client yields
`null`); `readFails n` / `writeFails n` schedule whether the n-th read/write
raises; `log` records every operation in order. -/
structure FakeStore where
  val : Option Json
  readFails : Nat → Bool
  writeFails : Nat → Bool
  nReads : Nat
  nWrites : Nat
  log : List StoreOp

/-- `getUserProperty` (src/services/jira.ts lines 121-140) against the fake
store: a 404 yields `.ok none` (the client returns `null` rather than
throwing); a scheduled failure yields `.error`. -/
def getUserProperty (s : FakeStore) : Except Unit (Option Json) × FakeStore :=
  if s.readFails s.nReads then
    (.error (), { s with nReads := s.nReads + 1, log := s.log ++ [StoreOp.readErr] })
  else
    (.ok s.val, { s with nReads := s.nReads + 1, log := s.log ++ [StoreOp.readOk s.val] })

/-- `setUserProperty` (src/services/jira.ts lines 142-161) against the fake
store: on success the property value becomes the written value. -/
def setUserProperty (v : Json) (s : FakeStore) : Except Unit Unit × FakeStore :=
  if s.writeFails s.nWrites then
    (.error (), { s with nWrites := s.nWrites + 1, log := s.log ++ [StoreOp.writeErr v] })
  else
    (.ok (), { s with val := some v, nWrites := s.nWrites + 1, log := s.log ++ [StoreOp.writeOk v] })

/-- The catch block of `updateJiraStateAtomically` (src/hooks/useJira.ts
lines 17-21): one more read, whose parsed value is returned; an error in
this recovery read propagates. -/
def recoverRead (s : FakeStore) : Except Unit JsObj × FakeStore :=
  match getUserProperty s with
  | (.error e, s1) => (.error e, s1)
  | (.ok v, s1) => (.ok (parseStateJson v), s1)

/-- `updateJiraStateAtomically` (src/hooks/useJira.ts lines 9-22): read the
property, parse, apply the updater, serialize, write, and return the new
state; any failure falls into the recovery path.  The updater is the pure
transition closure supplied by the caller. -/
def updateJiraStateAtomically (updater : JsObj → JsObj) (s : FakeStore) :
    Except Unit JsObj × FakeStore :=
  match getUserProperty s with
  | (.error _, s1) => recoverRead s1
  | (.ok v, s1) =>
      let currentState := parseStateJson v
      let newState := updater currentState
      let newStateText := stringifyState newState
      match setUserProperty newStateText s1 with
      | (.error _, s2) => recoverRead s2
      | (.ok _, s2) => (.ok newState, s2)

/-- C9: reading the persisted user state never fails for missing or malformed
content.  A 404 (modelled by an absent property value) parses to the default
state; an unparseable body (the `JSON.parse` model returns `none`) parses to
the default state; an empty body parses to the default state; and a body that
parses to a JS non-object (a primitive, `null`, `true`/`false`) parses to the
default state.  `parseState` is a total function, so no case throws. -/
theorem parseState_defaults_on_missing_or_malformed :
    (∀ store : FakeStore, store.readFails store.nReads = false → store.val = none →
      (getUserProperty store).1 = .ok none) ∧
    parseStateJson none = defaultState ∧
    (∀ jsonParse : String → Option Json, ∀ s : String,
      jsonParse s = none → parseState jsonParse (some s) = defaultState) ∧
    (∀ jsonParse : String → Option Json,
      parseState jsonParse (some "") = defaultState) ∧
    (∀ (jsonParse : String → Option Json) (s : String) (v : Json),
      jsonParse s = some v → nonObjectLike v = true →
      parseState jsonParse (some s) = defaultState) := by
  refine ⟨?_, ?_, ?_, ?_, ?_⟩
  · intro store h1 h2
    simp [getUserProperty, h1, h2]
  · simp [parseStateJson, defaultState, lookupF, jsTruthyO, jsTruthy]
  · intro jp s h
    by_cases hs : s = ""
    · simp [parseState, hs, parseStateJson, defaultState, lookupF, jsTruthyO, jsTruthy]
    · simp [parseState, hs, h, parseStateJson, defaultState, lookupF, jsTruthyO, jsTruthy]
  · intro jp
    simp [parseState, parseStateJson, defaultState, lookupF, jsTruthyO, jsTruthy]
  · intro jp s v h hv
    by_cases hs : s = ""
    · simp [parseState, hs, parseStateJson, defaultState, lookupF, jsTruthyO, jsTruthy]
    · cases v <;> simp_all [nonObjectLike] <;>
        simp [parseState, hs, h, parseStateJson, defaultState, lookupF, jsTruthyO, jsTruthy]

/-- C9 witness: a 404 store reads back as `null` without an error, and a
malformed body with a parser that rejects it yields the default state. -/
theorem parseState_defaults_witness :
    ((getUserProperty
        { val := none, readFails := fun _ => false, writeFails := fun _ => false,
          nReads := 0, nWrites := 0, log := [] }).1 = .ok none) ∧
    (fun _ : String => (none : Option Json)) "not json" = none ∧
    parseState (fun _ => none) (some "not json") = defaultState :=
  ⟨parseState_defaults_on_missing_or_malformed.1
     { val := none, readFails := fun _ => false, writeFails := fun _ => false,
       nReads := 0, nWrites := 0, log := [] } rfl rfl,
   rfl,
   parseState_defaults_on_missing_or_malformed.2.2.1 (fun _ => none) "not json" rfl⟩

/-- C1: with no transport failures, each call to the atomic updater performs
a fresh read and writes exactly `stringifyState (t (parseState v))` where `v`
is the value returned by that same call's read — the trace extends by a read
of the current value immediately followed by the write, with nothing in
between — and the call returns `t (parseState v)`.  Consequently a second,
sequential call applies its transition to the state parsed from the first
call's written value. -/
theorem updateJiraStateAtomically_fresh_read :
    ∀ (updater : JsObj → JsObj) (store : FakeStore),
      store.readFails = (fun _ => false) →
      store.writeFails = (fun _ => false) →
      (updateJiraStateAtomically updater store).1
          = .ok (updater (parseStateJson store.val)) ∧
      (updateJiraStateAtomically updater store).2.val
          = some (stringifyState (updater (parseStateJson store.val))) ∧
      (updateJiraStateAtomically updater store).2.log
          = store.log ++ [StoreOp.readOk store.val,
              StoreOp.writeOk (stringifyState (updater (parseStateJson store.val)))] ∧
      (∀ updater2 : JsObj → JsObj,
        (updateJiraStateAtomically updater2 (updateJiraStateAtomically updater store).2).1
          = .ok (updater2 (parseStateJson
              (some (stringifyState (updater (parseStateJson store.val))))))) := by
  intro updater store h1 h2
  refine ⟨?_, ?_, ?_, ?_⟩ <;>
    simp [updateJiraStateAtomically, getUserProperty, setUserProperty, h1, h2]

/-- C1 witness: a concrete store and transition; the second call's result
reflects the first call's write. -/
theorem updateJiraStateAtomically_fresh_read_witness :
    (fun _ : Nat => false) = (fun _ : Nat => false) ∧
    ((updateJiraStateAtomically
        (fun st => setField st "starredTickets" (Json.arr [Json.str "B"]))
        { val := none, readFails := fun _ => false, writeFails := fun _ => false,
          nReads := 0, nWrites := 0, log := [] }).1
      = .ok (setField (parseStateJson none) "starredTickets" (Json.arr [Json.str "B"])) ∧
     (updateJiraStateAtomically
        (fun st => setField st "starredTickets" (Json.arr [Json.str "B"]))
        { val := none, readFails := fun _ => false, writeFails := fun _ => false,
          nReads := 0, nWrites := 0, log := [] }).2.val
      = some (stringifyState
          (setField (parseStateJson none) "starredTickets" (Json.arr [Json.str "B"]))) ∧
     (updateJiraStateAtomically
        (fun st => setField st "starredTickets" (Json.arr [Json.str "B"]))
        { val := none, readFails := fun _ => false, writeFails := fun _ => false,
          nReads := 0, nWrites := 0, log := [] }).2.log
      = [] ++ [StoreOp.readOk none,
          StoreOp.writeOk (stringifyState
            (setField (parseStateJson none) "starredTickets" (Json.arr [Json.str "B"])))] ∧
     (∀ updater2 : JsObj → JsObj,
       (updateJiraStateAtomically updater2
          ((updateJiraStateAtomically
              (fun st => setField st "starredTickets" (Json.arr [Json.str "B"]))
              { val := none, readFails := fun _ => false, writeFails := fun _ => false,
                nReads := 0, nWrites := 0, log := [] }).2)).1
         = .ok (updater2 (parseStateJson
             (some (stringifyState
               (setField (parseStateJson none) "starredTickets"
                 (Json.arr [Json.str "B"])))))))) :=
  ⟨rfl, updateJiraStateAtomically_fresh_read
    (fun st => setField st "starredTickets" (Json.arr [Json.str "B"]))
    { val := none, readFails := fun _ => false, writeFails := fun _ => false,
      nReads := 0, nWrites := 0, log := [] } rfl rfl⟩

/-- C3: failure handling of the atomic updater.  If the initial read fails,
no write is attempted during that call (the trace gains a failed read and
one recovery read only), the updater performs exactly one more read and
returns its parsed value. If the write fails after a successful read, the
updater performs exactly one more read and returns its parsed value — the
property value is unchanged, so the failed transition's intended effect is
discarded and the transition's output is not returned. -/
theorem updateJiraStateAtomically_failure_recovery :
    (∀ (updater : JsObj → JsObj) (store : FakeStore),
      store.readFails store.nReads = true →
      store.readFails (store.nReads + 1) = false →
      (updateJiraStateAtomically updater store).1 = .ok (parseStateJson store.val) ∧
      (updateJiraStateAtomically updater store).2.val = store.val ∧
      (updateJiraStateAtomically updater store).2.nWrites = store.nWrites ∧
      (updateJiraStateAtomically updater store).2.nReads = store.nReads + 2 ∧
      (updateJiraStateAtomically updater store).2.log
        = store.log ++ [StoreOp.readErr, StoreOp.readOk store.val]) ∧
    (∀ (updater : JsObj → JsObj) (store : FakeStore),
      store.readFails store.nReads = false →
      store.readFails (store.nReads + 1) = false →
      store.writeFails store.nWrites = true →
      (updateJiraStateAtomically updater store).1 = .ok (parseStateJson store.val) ∧
      (updateJiraStateAtomically updater store).2.val = store.val ∧
      (updateJiraStateAtomically updater store).2.nReads = store.nReads + 2 ∧
      (updateJiraStateAtomically updater store).2.log
        = store.log ++ [StoreOp.readOk store.val,
            StoreOp.writeErr (stringifyState (updater (parseStateJson store.val))),
            StoreOp.readOk store.val]) := by
  constructor
  · intro updater store h1 h2
    refine ⟨?_, ?_, ?_, ?_, ?_⟩ <;>
      simp [updateJiraStateAtomically, recoverRead, getUserProperty, h1, h2]
  · intro updater store h1 h2 h3
    refine ⟨?_, ?_, ?_, ?_⟩ <;>
      simp [updateJiraStateAtomically, recoverRead, getUserProperty, setUserProperty,
        h1, h2, h3]

/-- C3 witness: a store whose first read fails recovers with one more read
and no write; a store whose first write fails recovers likewise, leaving the
property value untouched. -/
theorem updateJiraStateAtomically_failure_recovery_witness :
    ((fun n : Nat => n == 0) 0 = true ∧
     (fun n : Nat => n == 0) (0 + 1) = false ∧
     (updateJiraStateAtomically (fun st => st)
        { val := none, readFails := fun n => n == 0, writeFails := fun _ => false,
          nReads := 0, nWrites := 0, log := [] }).1 = .ok (parseStateJson none) ∧
     (updateJiraStateAtomically (fun st => st)
        { val := none, readFails := fun n => n == 0, writeFails := fun _ => false,
          nReads := 0, nWrites := 0, log := [] }).2.nWrites = 0 ∧
     (updateJiraStateAtomically (fun st => st)
        { val := none, readFails := fun n => n == 0, writeFails := fun _ => false,
          nReads := 0, nWrites := 0, log := [] }).2.log
       = [] ++ [StoreOp.readErr, StoreOp.readOk none]) ∧
    ((updateJiraStateAtomically (fun st => setField st "x" Json.null)
        { val := none, readFails := fun _ => false, writeFails := fun n => n == 0,
          nReads := 0, nWrites := 0, log := [] }).1 = .ok (parseStateJson none) ∧
     (updateJiraStateAtomically (fun st => setField st "x" Json.null)
        { val := none, readFails := fun _ => false, writeFails := fun n => n == 0,
          nReads := 0, nWrites := 0, log := [] }).2.val = none) :=
  ⟨⟨rfl, rfl,
    ((updateJiraStateAtomically_failure_recovery.1 (fun st => st)
       { val := none, readFails := fun n => n == 0, writeFails := fun _ => false,
         nReads := 0, nWrites := 0, log := [] } rfl rfl)).1,
    ((updateJiraStateAtomically_failure_recovery.1 (fun st => st)
       { val := none, readFails := fun n => n == 0, writeFails := fun _ => false,
         nReads := 0, nWrites := 0, log := [] } rfl rfl)).2.2.1,
    ((updateJiraStateAtomically_failure_recovery.1 (fun st => st)
       { val := none, readFails := fun n => n == 0, writeFails := fun _ => false,
         nReads := 0, nWrites := 0, log := [] } rfl rfl)).2.2.2.2⟩,
   ⟨((updateJiraStateAtomically_failure_recovery.2 (fun st => setField st "x" Json.null)
       { val := none, readFails := fun _ => false, writeFails := fun n => n == 0,
         nReads := 0, nWrites := 0, log := [] } rfl rfl rfl)).1,
    ((updateJiraStateAtomically_failure_recovery.2 (fun st => setField st "x" Json.null)
       { val := none, readFails := fun _ => false, writeFails := fun n => n == 0,
         nReads := 0, nWrites := 0, log := [] } rfl rfl rfl)).2.1⟩⟩

/-- Modelled from the spec: the two-argument asynchronous
`parseState(text, client)` that `updateJiraStateAtomically` in
src/hooks/useJira.ts awaits is not present under src/ (src/utils/jira.ts
holds the earlier one-argument version, which ignores the client and never
migrates).  Per spec section 4.3 step 1, the missing read step parses the
blob, runs it through the Migration Engine (`migrateJiraState`), immediately
writes the migrated form back (serialized by the repository's own
`stringifyState`) when the engine reports a migration, and returns the
migrated value as the basis for the transition. -/
def parseStateWithMigration (txt : Option Json) (s : FakeStore) :
    Except Unit JsObj × FakeStore :=
  let parsed := parseStateJson txt
  let migrated := migrateJiraState parsed
  if migrated.2 then
    match setUserProperty (stringifyState migrated.1) s with
    | (.error e, s1) => (.error e, s1)
    | (.ok _, s1) => (.ok migrated.1, s1)
  else
    (.ok parsed, s)

/-- Modelled from the spec: `updateJiraStateAtomically` as it stands in
src/hooks/useJira.ts lines 9-22, with its read step delegated to the
migration-aware `parseStateWithMigration` above; modify, write and recovery
are unchanged from the embedded source. -/
def updateJiraStateAtomicallyM (updater : JsObj → JsObj) (s : FakeStore) :
    Except Unit JsObj × FakeStore :=
  match getUserProperty s with
  | (.error _, s1) => recoverRead s1
  | (.ok v, s1) =>
      match parseStateWithMigration v s1 with
      | (.error _, s2) => recoverRead s2
      | (.ok currentState, s2) =>
          let newState := updater currentState
          let newStateText := stringifyState newState
          match setUserProperty newStateText s2 with
          | (.error _, s3) => recoverRead s3
          | (.ok _, s3) => (.ok newState, s3)

/-- C2: in the atomic updater's read step the parsed remote state is run
through the jira-state migration chain; whenever the engine reports a
migration the migrated form is written back to the store before the
transition runs — the trace shows the write-back strictly between the read
and the transition's own write — and the migrated value is the basis handed
to the transition; when no migration is reported, no extra write happens and
the parsed value is the basis. -/
theorem updateJiraStateAtomically_migrates_on_read :
    ∀ (updater : JsObj → JsObj) (store : FakeStore),
      store.readFails = (fun _ => false) →
      store.writeFails = (fun _ => false) →
      (((migrateJiraState (parseStateJson store.val)).2 = true →
        (updateJiraStateAtomicallyM updater store).1
          = .ok (updater (migrateJiraState (parseStateJson store.val)).1) ∧
        (updateJiraStateAtomicallyM updater store).2.log
          = store.log ++ [StoreOp.readOk store.val,
              StoreOp.writeOk (stringifyState (migrateJiraState (parseStateJson store.val)).1),
              StoreOp.writeOk (stringifyState
                (updater (migrateJiraState (parseStateJson store.val)).1))]) ∧
       ((migrateJiraState (parseStateJson store.val)).2 = false →
        (updateJiraStateAtomicallyM updater store).1
          = .ok (updater (parseStateJson store.val)) ∧
        (updateJiraStateAtomicallyM updater store).2.log
          = store.log ++ [StoreOp.readOk store.val,
              StoreOp.writeOk (stringifyState (updater (parseStateJson store.val)))])) := by
  intro updater store h1 h2
  constructor
  · intro hm
    constructor <;>
      simp [updateJiraStateAtomicallyM, parseStateWithMigration, getUserProperty,
        setUserProperty, recoverRead, h1, h2, hm]
  · intro hm
    constructor <;>
      simp [updateJiraStateAtomicallyM, parseStateWithMigration, getUserProperty,
        setUserProperty, recoverRead, h1, h2, hm]

/-- C2 witness: a pre-versioning stored blob (the empty object) is migrated
on read, the migrated form is written back before the transition's write,
and the transition receives the migrated value. -/
theorem updateJiraStateAtomically_migrates_on_read_witness :
    (fun _ : Nat => false) = (fun _ : Nat => false) ∧
    (migrateJiraState (parseStateJson (some (Json.obj [])))).2 = true ∧
    ((updateJiraStateAtomicallyM (fun st => st)
        { val := some (Json.obj []), readFails := fun _ => false,
          writeFails := fun _ => false, nReads := 0, nWrites := 0, log := [] }).1
       = .ok ((fun st => st) (migrateJiraState
           (parseStateJson (some (Json.obj [])))).1) ∧
     (updateJiraStateAtomicallyM (fun st => st)
        { val := some (Json.obj []), readFails := fun _ => false,
          writeFails := fun _ => false, nReads := 0, nWrites := 0, log := [] }).2.log
       = [] ++ [StoreOp.readOk (some (Json.obj [])),
           StoreOp.writeOk (stringifyState (migrateJiraState
             (parseStateJson (some (Json.obj [])))).1),
           StoreOp.writeOk (stringifyState ((fun st => st) (migrateJiraState
             (parseStateJson (some (Json.obj [])))).1))]) :=
  ⟨rfl, by decide,
   (updateJiraStateAtomically_migrates_on_read (fun st => st)
      { val := some (Json.obj []), readFails := fun _ => false,
        writeFails := fun _ => false, nReads := 0, nWrites := 0, log := [] }
      rfl rfl).1 (by decide)⟩

/-! ### Worklog day-window resolver (src/services/jira.ts lines 343-437) -/

/-- A fetched worklog entry, with the fields the filter and sort inspect:
`author?.emailAddress` (absent author modelled by `none`), the start instant
`started` as a millisecond epoch (the value of `+moment(worklog.started)`),
and `timeSpentSeconds`. -/
structure Worklog where
  authorEmail : Option String
  started : Int
  timeSpentSeconds : Int

/-- Lodash `_.inRange(n, start, end)`: `n` lies in the half-open interval
between the two bounds (lodash swaps them if given in reverse order). -/
def lodashInRange (n lo hi : Int) : Bool :=
  decide (min lo hi ≤ n) && decide (n < max lo hi)

/-- `filterWorklogs` (src/services/jira.ts lines 390-402): keep a pair when
the worklog's author email strictly equals the client's email, and the
computed end instant (`start + timeSpentSeconds` seconds) or the start
instant lies in `[startOfDay, endOfDay)`. -/
def filterWorklogs {α : Type} (email : String) (startOfDay endOfDay : Int)
    (worklogs : List (α × Worklog)) : List (α × Worklog) :=
  worklogs.filter fun p =>
    if (p.2.authorEmail == some email) = false then false
    else
      let worklogStart := p.2.started
      let worklogEnd := worklogStart + p.2.timeSpentSeconds * 1000
      lodashInRange worklogEnd startOfDay endOfDay
        || lodashInRange worklogStart startOfDay endOfDay

/-- Milliseconds per calendar day. -/
def msPerDay : Int := 86400000

/-- `moment(day).startOf('day')` for a day given by its midnight epoch. -/
def startOfDayMs (dayMidnight : Int) : Int := dayMidnight

/-- `moment(day).endOf('day')` — the last millisecond of the day — as used
for `endOfDay` in `getLogsForDay` (src/services/jira.ts lines 407-408). -/
def endOfDayMs (dayMidnight : Int) : Int := dayMidnight + msPerDay - 1

/-- C4: the day-window filter keeps a fetched entry exactly when its author
email equals the current user's email and its start instant or its computed
end instant `start + duration` falls in the half-open day window
`[dayStart, dayEnd)` (with `dayEnd` the value the code derives from
`endOf('day')`).  In particular an entry starting exactly at the window's
upper bound is excluded whatever its (non-negative) duration, an entry
starting exactly at `dayStart` is included, and an entry starting one second
before `dayStart` whose duration carries its end into the window is
included. -/
theorem filterWorklogs_day_window :
    (∀ (email : String) (day : Int) (ws : List (Unit × Worklog)) (p : Unit × Worklog),
      p ∈ filterWorklogs email (startOfDayMs day) (endOfDayMs day) ws ↔
        p ∈ ws ∧ p.2.authorEmail = some email ∧
          ((startOfDayMs day ≤ p.2.started + p.2.timeSpentSeconds * 1000 ∧
              p.2.started + p.2.timeSpentSeconds * 1000 < endOfDayMs day) ∨
           (startOfDayMs day ≤ p.2.started ∧ p.2.started < endOfDayMs day))) ∧
    (∀ dur : Int, 0 ≤ dur →
      filterWorklogs "user@example.com" (startOfDayMs 0) (endOfDayMs 0)
        [((), { authorEmail := some "user@example.com", started := endOfDayMs 0,
                timeSpentSeconds := dur })] = []) ∧
    (filterWorklogs "user@example.com" (startOfDayMs 0) (endOfDayMs 0)
        [((), { authorEmail := some "user@example.com", started := startOfDayMs 0,
                timeSpentSeconds := 60 })]
      = [((), { authorEmail := some "user@example.com", started := startOfDayMs 0,
                timeSpentSeconds := 60 })]) ∧
    (filterWorklogs "user@example.com" (startOfDayMs 0) (endOfDayMs 0)
        [((), { authorEmail := some "user@example.com", started := -1000,
                timeSpentSeconds := 3600 })]
      = [((), { authorEmail := some "user@example.com", started := -1000,
                timeSpentSeconds := 3600 })]) := by
  refine ⟨?_, ?_, ?_, ?_⟩
  · intro email day ws p
    have hlo : min (startOfDayMs day) (endOfDayMs day) = startOfDayMs day := by
      simp [startOfDayMs, endOfDayMs, msPerDay]
      omega
    have hhi : max (startOfDayMs day) (endOfDayMs day) = endOfDayMs day := by
      simp [startOfDayMs, endOfDayMs, msPerDay]
      omega
    simp only [filterWorklogs, List.mem_filter]
    constructor
    · rintro ⟨hmem, hf⟩
      refine ⟨hmem, ?_⟩
      rcases hp : p.2.authorEmail == some email with _ | _
      · simp [hp] at hf
      · have hemail : p.2.authorEmail = some email := by
          simpa using hp
        refine ⟨hemail, ?_⟩
        simp [hp, lodashInRange, hlo, hhi] at hf
        tauto
    · rintro ⟨hmem, hemail, hrange⟩
      refine ⟨hmem, ?_⟩
      have hp : (p.2.authorEmail == some email) = true := by simp [hemail]
      simp [hp, lodashInRange, hlo, hhi]
      tauto
  · intro dur hdur
    simp [filterWorklogs, lodashInRange, startOfDayMs, endOfDayMs, msPerDay]
    omega
  · simp [filterWorklogs, lodashInRange, startOfDayMs, endOfDayMs, msPerDay]
  · simp [filterWorklogs, lodashInRange, startOfDayMs, endOfDayMs, msPerDay]

/-- C4 witness: the boundary example instantiated — an entry starting exactly
at the window's upper bound with one hour of work is dropped. -/
theorem filterWorklogs_day_window_witness :
    0 ≤ (3600 : Int) ∧
    filterWorklogs "user@example.com" (startOfDayMs 0) (endOfDayMs 0)
      [((), { authorEmail := some "user@example.com", started := endOfDayMs 0,
              timeSpentSeconds := 3600 })] = [] :=
  ⟨by decide, filterWorklogs_day_window.2.1 3600 (by decide)⟩

/-- One page of the per-issue worklog endpoint
(`/rest/api/3/issue/_/worklog`): the echoed `startAt`, the page size
`maxResults`, the overall `total`, and the page's entries. -/
structure WorklogPage where
  startAt : Int
  maxResults : Int
  total : Int
  worklogs : List Worklog

/-- `fetchPaginatedWorklogs` (src/services/jira.ts lines 369-388): starting
at 0, fetch a page, append its entries, stop when the response's
`startAt + maxResults >= total`, else advance `startAt` by the response's
`maxResults`.  The `while (true)` loop is given explicit fuel — `none` means
the fuel ran out before the stop condition held — and the list of requested
`startAt` values is returned alongside the accumulated entries. -/
def fetchPaginatedWorklogs (endpoint : Int → WorklogPage) :
    Nat → Int → Option (List Int × List Worklog)
  | 0, _ => none
  | Nat.succ fuel, startAt =>
      let page := endpoint startAt
      if page.startAt + page.maxResults ≥ page.total then
        some ([startAt], page.worklogs)
      else
        match fetchPaginatedWorklogs endpoint fuel (startAt + page.maxResults) with
        | none => none
        | some r => some (startAt :: r.1, page.worklogs ++ r.2)

/-- The final ordering step of `getLogsForDay` (src/services/jira.ts line
436): `_.orderBy(flattenedWorklogs, x => +moment(x.worklog.started))`, a
stable ascending sort by start instant. -/
def orderWorklogsByStart {α : Type} (ws : List (α × Worklog)) : List (α × Worklog) :=
  ws.mergeSort fun a b => decide (a.2.started ≤ b.2.started)

/-- The 12000 entries served by the fake endpoint of the pagination
scenario, in start order. -/
def scenarioAll : List Worklog :=
  (List.range 12000).map fun (n : Nat) =>
    { authorEmail := some "user@example.com", started := (n : Int), timeSpentSeconds := 60 }

/-- The fake worklog endpoint of the pagination scenario: every response
reports `total = 12000` and `maxResults = 5000`, echoes the requested
`startAt`, and serves the corresponding 5000-entry slice. -/
def endpoint12000 : Int → WorklogPage := fun s =>
  { startAt := s, maxResults := 5000, total := 12000,
    worklogs := (scenarioAll.drop s.toNat).take 5000 }


theorem fetchPaginatedWorklogs_stop (endpoint : Int → WorklogPage) (fuel : Nat)
    (startAt : Int)
    (h : (endpoint startAt).startAt + (endpoint startAt).maxResults
          ≥ (endpoint startAt).total) :
    fetchPaginatedWorklogs endpoint (fuel + 1) startAt
      = some ([startAt], (endpoint startAt).worklogs) := by
  simp [fetchPaginatedWorklogs, h]

theorem fetchPaginatedWorklogs_go (endpoint : Int → WorklogPage) (fuel : Nat)
    (startAt : Int)
    (h : (endpoint startAt).startAt + (endpoint startAt).maxResults
          < (endpoint startAt).total) :
    fetchPaginatedWorklogs endpoint (fuel + 1) startAt
      = Option.map (fun r => (startAt :: r.1, (endpoint startAt).worklogs ++ r.2))
          (fetchPaginatedWorklogs endpoint fuel (startAt + (endpoint startAt).maxResults)) := by
  have h' : ¬ ((endpoint startAt).startAt + (endpoint startAt).maxResults
      ≥ (endpoint startAt).total) := by omega
  simp only [fetchPaginatedWorklogs, h', if_false]
  rcases fetchPaginatedWorklogs endpoint fuel (startAt + (endpoint startAt).maxResults)
    with _ | r <;> simp

theorem endpoint12000_fields (s : Int) :
    (endpoint12000 s).startAt = s ∧ (endpoint12000 s).maxResults = 5000 ∧
    (endpoint12000 s).total = 12000 ∧
    (endpoint12000 s).worklogs = (scenarioAll.drop s.toNat).take 5000 := by
  simp [endpoint12000]

theorem scenarioAll_length : scenarioAll.length = 12000 := by
  simp only [scenarioAll, List.length_map, List.length_range]

theorem fetchPaginatedWorklogs_scenario (extraFuel : Nat) :
    fetchPaginatedWorklogs endpoint12000 (extraFuel + 3) 0
      = some ([0, 5000, 10000], scenarioAll) := by
  have h2 : fetchPaginatedWorklogs endpoint12000 (extraFuel + 1) 10000
      = some ([10000], (scenarioAll.drop 10000).take 5000) := by
    rw [fetchPaginatedWorklogs_stop endpoint12000 extraFuel 10000 (by norm_num [endpoint12000])]
    simp [endpoint12000]
  have h1 : fetchPaginatedWorklogs endpoint12000 (extraFuel + 2) 5000
      = some ([5000, 10000],
          (scenarioAll.drop 5000).take 5000 ++ (scenarioAll.drop 10000).take 5000) := by
    rw [show extraFuel + 2 = (extraFuel + 1) + 1 from rfl,
      fetchPaginatedWorklogs_go endpoint12000 (extraFuel + 1) 5000
        (by norm_num [endpoint12000])]
    have : (5000 : Int) + (endpoint12000 5000).maxResults = 10000 := by
      norm_num [endpoint12000]
    rw [this, h2]
    simp [endpoint12000]
  have h0 : fetchPaginatedWorklogs endpoint12000 (extraFuel + 3) 0
      = some ([0, 5000, 10000],
          scenarioAll.take 5000
            ++ ((scenarioAll.drop 5000).take 5000 ++ (scenarioAll.drop 10000).take 5000)) := by
    rw [show extraFuel + 3 = (extraFuel + 2) + 1 from rfl,
      fetchPaginatedWorklogs_go endpoint12000 (extraFuel + 2) 0
        (by norm_num [endpoint12000])]
    have : (0 : Int) + (endpoint12000 0).maxResults = 5000 := by
      norm_num [endpoint12000]
    rw [this, h1]
    simp [endpoint12000]
  rw [h0]
  have hlast : (scenarioAll.drop 10000).take 5000 = scenarioAll.drop 10000 := by
    apply List.take_of_length_le
    simp [scenarioAll_length]
  rw [hlast]
  have hdd : scenarioAll.drop 10000 = (scenarioAll.drop 5000).drop 5000 := by
    rw [List.drop_drop]
  rw [hdd, List.take_append_drop 5000 (scenarioAll.drop 5000),
    List.take_append_drop 5000 scenarioAll]

/-- C5: the pagination loop stops exactly when the response reports
`startAt + maxResults >= total` (first two conjuncts: the loop's one-step
behaviour on either side of the condition, for any endpoint); against the
fake endpoint reporting `total = 12000, maxResults = 5000` it issues exactly
the three requests `0, 5000, 10000` — with any amount of remaining fuel, so
the loop terminates there — and returns all 12000 entries; and the
resolver's final ordering step sorts any flattened list ascending by start
instant while preserving its entries (so the scenario's 12000 entries come
back sorted). -/
theorem fetchPaginatedWorklogs_terminates :
    (∀ (endpoint : Int → WorklogPage) (fuel : Nat) (startAt : Int),
      (endpoint startAt).startAt + (endpoint startAt).maxResults ≥ (endpoint startAt).total →
      fetchPaginatedWorklogs endpoint (fuel + 1) startAt
        = some ([startAt], (endpoint startAt).worklogs)) ∧
    (∀ (endpoint : Int → WorklogPage) (fuel : Nat) (startAt : Int),
      (endpoint startAt).startAt + (endpoint startAt).maxResults < (endpoint startAt).total →
      fetchPaginatedWorklogs endpoint (fuel + 1) startAt
        = Option.map (fun r => (startAt :: r.1, (endpoint startAt).worklogs ++ r.2))
            (fetchPaginatedWorklogs endpoint fuel
              (startAt + (endpoint startAt).maxResults))) ∧
    (∀ extraFuel : Nat,
      fetchPaginatedWorklogs endpoint12000 (extraFuel + 3) 0
        = some ([0, 5000, 10000], scenarioAll)) ∧
    scenarioAll.length = 12000 ∧
    (∀ ws : List (Unit × Worklog),
      (orderWorklogsByStart ws).Pairwise (fun a b => a.2.started ≤ b.2.started) ∧
      (orderWorklogsByStart ws).Perm ws) := by
  refine ⟨fetchPaginatedWorklogs_stop, fetchPaginatedWorklogs_go,
    fetchPaginatedWorklogs_scenario, scenarioAll_length, ?_⟩
  intro ws
  constructor
  · have h := @List.sorted_mergeSort (Unit × Worklog)
      (fun a b => decide (a.2.started ≤ b.2.started))
      (fun a b c h1 h2 => by simp at h1 h2 ⊢; omega)
      (fun a b => by simpa using Int.le_total a.2.started b.2.started) ws
    exact h.imp fun hab => by simpa using hab
  · exact List.mergeSort_perm ws _

/-- C5 witness: the loop's stop condition instantiated at the scenario's
last page — the response for `startAt = 10000` reports
`10000 + 5000 >= 12000`, so one unit of fuel suffices and exactly that one
request is issued. -/
theorem fetchPaginatedWorklogs_terminates_witness :
    (endpoint12000 10000).startAt + (endpoint12000 10000).maxResults
        ≥ (endpoint12000 10000).total ∧
    fetchPaginatedWorklogs endpoint12000 (0 + 1) 10000
      = some ([10000], (endpoint12000 10000).worklogs) :=
  ⟨by norm_num [endpoint12000],
   fetchPaginatedWorklogs_terminates.1 endpoint12000 0 10000 (by norm_num [endpoint12000])⟩

/-! ### Rich-text extraction (src/utils/jira.ts lines 28-49) -/

theorem lookupF_sizeOf {kvs : List (String × Json)} {k : String} {v : Json}
    (h : lookupF kvs k = some v) : sizeOf v < sizeOf kvs := by
  induction kvs with
  | nil => simp [lookupF] at h
  | cons p rest ih =>
      obtain ⟨k', v'⟩ := p
      simp only [lookupF] at h
      split at h
      · cases h; simp; omega
      · have := ih h; simp; omega

theorem getField_sizeOf {n : Json} {k : String} {v : Json}
    (h : getField n k = some v) : sizeOf v < sizeOf n := by
  cases n <;> simp [getField] at h
  case obj kvs =>
    have := lookupF_sizeOf h
    simp
    omega

/-- The branch arms of the `switch (node.type)` in
`extractTextFromAtlassianDocumentFormat`: the two leaf cases, the
newline-joined list containers (`bulletList`/`orderedList`), `listItem`, and
everything else (`paragraph`/`doc`/`blockquote`/`heading` and the
forward-compatible `default` arm behave identically: children joined with
the empty separator). -/
inductive AdfKind where
  | text : AdfKind
  | inlineCard : AdfKind
  | listJoin : AdfKind
  | listItem : AdfKind
  | other : AdfKind
  deriving DecidableEq

/-- Dispatch of `switch (node.type)` (src/utils/jira.ts lines 31-47). -/
def adfKind (ty : Option Json) : AdfKind :=
  match ty with
  | some (Json.str "text") => AdfKind.text
  | some (Json.str "inlineCard") => AdfKind.inlineCard
  | some (Json.str "bulletList") => AdfKind.listJoin
  | some (Json.str "orderedList") => AdfKind.listJoin
  | some (Json.str "listItem") => AdfKind.listItem
  | _ => AdfKind.other

/-- JS `x || ''` for the string-valued fields read by the extractor
(`node.text`, `attrs.url`); a missing or non-string value contributes the
empty string. -/
def jsStrOrEmpty (o : Option Json) : String :=
  match o with
  | some (Json.str s) => s
  | _ => ""

/-- Joining of the children's texts per node kind: `join('\n')` for the list
containers, the `- ` prefix and trailing newline for `listItem`, `join('')`
for every other container (src/utils/jira.ts lines 40-47). -/
def combineParts (k : AdfKind) (parts : List String) : String :=
  match k with
  | AdfKind.listJoin => String.intercalate "\n" parts
  | AdfKind.listItem => "- " ++ String.join parts ++ "\n"
  | _ => String.join parts

mutual

/-- `extractTextFromAtlassianDocumentFormat` (src/utils/jira.ts lines
28-49), with JS exceptions surfaced as `.error`: a falsy node yields `""`;
a `text` node yields `node.text || ''`; an `inlineCard` node reads
`node.attrs.url || ''` and throws when `attrs` is absent or `null` (property
access on `undefined`/`null`); every other node maps the extractor over
`node.content || []` — throwing when a truthy `content` is not an array
(`.map` is not a function) — and joins the results per its kind. -/
def extractTextFromAtlassianDocumentFormat (node : Json) : Except Unit String :=
  if jsTruthy node = false then .ok ""
  else if adfKind (getField node "type") = AdfKind.text then
    .ok (jsStrOrEmpty (getField node "text"))
  else if adfKind (getField node "type") = AdfKind.inlineCard then
    match getField node "attrs" with
    | none => .error ()
    | some Json.null => .error ()
    | some a => .ok (jsStrOrEmpty (getField a "url"))
  else
    match h : getField node "content" with
    | none => .ok (combineParts (adfKind (getField node "type")) [])
    | some c =>
        if jsTruthy c = false then .ok (combineParts (adfKind (getField node "type")) [])
        else
          match c, h with
          | Json.arr xs, h =>
              match extractTextList xs with
              | .error e => .error e
              | .ok parts => .ok (combineParts (adfKind (getField node "type")) parts)
          | _, _ => .error ()
termination_by sizeOf node
decreasing_by
  have := getField_sizeOf h
  simp at this ⊢
  omega

/-- The `(node.content || []).map(extractTextFromAtlassianDocumentFormat)`
traversal: children are extracted left to right, the first thrown exception
propagating. -/
def extractTextList (xs : List Json) : Except Unit (List String) :=
  match xs with
  | [] => .ok []
  | x :: rest =>
      match extractTextFromAtlassianDocumentFormat x with
      | .error e => .error e
      | .ok s =>
          match extractTextList rest with
          | .error e => .error e
          | .ok ss => .ok (s :: ss)
termination_by sizeOf xs
decreasing_by
  all_goals simp
  omega

end

mutual

/-- Well-formedness of an input tree for the extractor: along every path the
extractor actually walks, an `inlineCard` node carries a non-`null` `attrs`
value, and a truthy `content` value is an array.  These are exactly the two
property accesses that can throw in the source. -/
def adfAttrsOk (node : Json) : Bool :=
  if jsTruthy node = false then true
  else if adfKind (getField node "type") = AdfKind.text then true
  else if adfKind (getField node "type") = AdfKind.inlineCard then
    match getField node "attrs" with
    | none => false
    | some Json.null => false
    | some _ => true
  else
    match h : getField node "content" with
    | none => true
    | some c =>
        if jsTruthy c = false then true
        else
          match c, h with
          | Json.arr xs, h => adfAttrsOkList xs
          | _, _ => false
termination_by sizeOf node
decreasing_by
  have := getField_sizeOf h
  simp at this ⊢
  omega

def adfAttrsOkList (xs : List Json) : Bool :=
  match xs with
  | [] => true
  | x :: rest => adfAttrsOk x && adfAttrsOkList rest
termination_by sizeOf xs
decreasing_by
  all_goals simp
  omega

end

theorem extractText_total_aux :
    ∀ k : Nat,
      (∀ n : Json, sizeOf n ≤ k → adfAttrsOk n = true →
        ∃ s : String, extractTextFromAtlassianDocumentFormat n = .ok s) ∧
      (∀ xs : List Json, sizeOf xs ≤ k → adfAttrsOkList xs = true →
        ∃ ss : List String, extractTextList xs = .ok ss) := by
  intro k
  induction k using Nat.strong_induction_on with
  | _ k IH =>
    constructor
    · intro n hsz hok
      by_cases ht : jsTruthy n = false
      · exact ⟨"", by rw [extractTextFromAtlassianDocumentFormat]; simp [ht]⟩
      · rw [adfAttrsOk, if_neg ht] at hok
        rw [extractTextFromAtlassianDocumentFormat, if_neg ht]
        by_cases hk1 : adfKind (getField n "type") = AdfKind.text
        · rw [if_pos hk1]
          exact ⟨_, rfl⟩
        · rw [if_neg hk1] at hok ⊢
          by_cases hk2 : adfKind (getField n "type") = AdfKind.inlineCard
          · rw [if_pos hk2] at hok ⊢
            rcases hattrs : getField n "attrs" with _ | a
            · rw [hattrs] at hok
              simp at hok
            · rw [hattrs] at hok
              cases a <;> simp_all
          · rw [if_neg hk2] at hok ⊢
            split at hok
            · exact ⟨_, rfl⟩
            · rename_i c heq
              split at hok
              · rename_i hcond
                rw [if_pos hcond]
                exact ⟨_, rfl⟩
              · rename_i hcond
                split at hok
                · rename_i heq2 xs
                  rw [if_neg hcond]
                  have hlt : sizeOf xs < sizeOf n := by
                    have := getField_sizeOf heq
                    simp at this
                    omega
                  obtain ⟨ss, hss⟩ :=
                    (IH (sizeOf xs) (by omega)).2 xs (le_refl _) hok
                  exact ⟨combineParts (adfKind (getField n "type")) ss, by rw [hss]⟩
                · simp at hok
    · intro xs hsz hok
      cases xs with
      | nil => exact ⟨[], by rw [extractTextList]⟩
      | cons x rest =>
          rw [adfAttrsOkList] at hok
          simp only [Bool.and_eq_true] at hok
          have hx : sizeOf x < sizeOf (x :: rest) := by simp; try omega
          have hrest : sizeOf rest < sizeOf (x :: rest) := by simp; try omega
          obtain ⟨s, hs⟩ := (IH (sizeOf x) (by omega)).1 x (le_refl _) hok.1
          obtain ⟨ss, hss⟩ := (IH (sizeOf rest) (by omega)).2 rest (le_refl _) hok.2
          refine ⟨s :: ss, ?_⟩
          simp [extractTextList, hs, hss]

unseal extractTextFromAtlassianDocumentFormat extractTextList in
/-- C10 counterexample: the extractor is not total over every possible node
tree — on an `inlineCard` node with no `attrs` field at all, the source's
`node.attrs.url` is a property access on `undefined` and throws, so this
input yields an exception rather than a string. -/
theorem extractText_throws_on_bare_inlineCard :
    extractTextFromAtlassianDocumentFormat (Json.obj [("type", Json.str "inlineCard")])
      = .error () := rfl

/-- C10 (amended): the extractor is total — it returns a string without
throwing — on every input tree in which each `inlineCard` node it walks has
a non-`null` `attrs` value and each truthy `content` value is an array
(`adfAttrsOk`); these are exactly the two property accesses that can throw
in the source, and arbitrary node types, missing `text` fields, missing
`content` fields and arbitrary nesting are all tolerated.  A `null` input
yields the empty string. -/
theorem extractText_total_amended :
    (∀ node : Json, adfAttrsOk node = true →
      ∃ s : String, extractTextFromAtlassianDocumentFormat node = .ok s) ∧
    extractTextFromAtlassianDocumentFormat Json.null = .ok "" := by
  constructor
  · intro node h
    exact (extractText_total_aux (sizeOf node)).1 node (le_refl _) h
  · rw [extractTextFromAtlassianDocumentFormat]
    simp [jsTruthy]

/-- C10 witness: a well-formed two-level document extracts successfully. -/
theorem extractText_total_amended_witness :
    adfAttrsOk (Json.obj [("type", Json.str "doc"),
        ("content", Json.arr [Json.obj [("type", Json.str "text"),
          ("text", Json.str "abc")]])]) = true ∧
    (∃ s : String, extractTextFromAtlassianDocumentFormat
        (Json.obj [("type", Json.str "doc"),
          ("content", Json.arr [Json.obj [("type", Json.str "text"),
            ("text", Json.str "abc")]])]) = .ok s) := by
  have h : adfAttrsOk (Json.obj [("type", Json.str "doc"),
      ("content", Json.arr [Json.obj [("type", Json.str "text"),
        ("text", Json.str "abc")]])]) = true := by
    simp [adfAttrsOk, adfAttrsOkList, getField, lookupF, jsTruthy, adfKind]
  exact ⟨h, extractText_total_amended.1 _ h⟩
